import Mathlib

/-!
Verification development for the persistence layer of the repository:
the literal entity manager (src/src/repository/LiteralRepository.ts, which
contains createLiteralRepository and createLiteralEntityManager), the
class based EntityManager, the literal tree repository
(src/src/repository/LiteralTreeRepository.ts), and the EntityNotFoundError.

Rows, criteria and find options are embedded as concrete inductive data so
that every operation is executable.  Promises are embedded as values of
Except types together with explicit effect records; asynchronous steps that
can fail (start, commit, rollback, observers, the user callback) are inputs
describing the outcome each call would produce.
-/

/-- A stored row of one table: a primary key value plus named column values.
Stands for the entity objects the managers read and return. -/
structure Ent where
  id : Int
  fields : List (String × String)
deriving DecidableEq, Repr

/-- The payload of a FindOptions object as far as the embedded code reads it:
an optional where condition (a conjunction of column equalities) and an
optional row limit.  The TypeScript code treats the object opaquely except
for spreading it and overriding the take field with 1. -/
structure FindOpts where
  cond : Option (List (String × String)) := none
  take : Option Nat := none
deriving DecidableEq, Repr

/-- An element of an array criteria value (arrays of ids in the source). -/
inductive IdValue where
  | str (s : String)
  | num (n : Int)
  | date (d : Int)
deriving DecidableEq, Repr

/-- The criteria argument accepted by findOne / update / delete and friends:
undefined, null, false, a string id, a numeric id, a Date, an array of ids,
a plain condition object (FindOptionsWhere), or a FindOptions object.
Modelled from the spec: the source dispatches on runtime shape
(typeof, instanceof, FindOptionsUtils.isFindOptions, whose code is not in
the shown slice); the spec directs replacing that shape sniffing with a
tagged input type, which is what this inductive is. -/
inductive Criteria where
  | undef
  | null
  | fls
  | str (s : String)
  | num (n : Int)
  | date (d : Int)
  | list (xs : List IdValue)
  | cond (c : List (String × String))
  | opts (o : FindOpts)
deriving DecidableEq, Repr

/-- typeof c is string, number, or c instanceof Date: the shapes both
findOne implementations treat as a lookup by id. -/
def isIdCriteria : Criteria → Bool
  | .str _ => true
  | .num _ => true
  | .date _ => true
  | _ => false

/-- c instanceof Object in JavaScript: objects, arrays and dates are
objects; undefined, null, false, strings and numbers are not. -/
def isObjectCriteria : Criteria → Bool
  | .list _ => true
  | .cond _ => true
  | .opts _ => true
  | .date _ => true
  | _ => false

/-- FindOptionsUtils.isFindOptions under the tagged embedding. -/
def isFindOptionsCriteria : Criteria → Bool
  | .opts _ => true
  | _ => false

/-- Does the row satisfy a conjunction of column equalities. -/
def condMatches (c : List (String × String)) (e : Ent) : Bool :=
  c.all (fun kv => e.fields.lookup kv.1 == some kv.2)

/-- Semantics of qb.where applied to a criteria value: a plain condition
object filters by column equalities; other shapes match no row. -/
def whereMatches (c : Criteria) (e : Ent) : Bool :=
  match c with
  | .cond c => condMatches c e
  | _ => false

/-- Semantics of qb.andWhereInIds for a single id criteria. -/
def idMatches (c : Criteria) (e : Ent) : Bool :=
  match c with
  | .num n => e.id == n
  | .str s => toString e.id == s
  | _ => false

/-- What one findOne call hands to the query builder: the find options that
were set (if any), the plain where condition (if any) and the id filter
(if any). -/
structure QuerySpec where
  findOpts : Option FindOpts
  whereObj : Option Criteria
  whereIds : Option Criteria

/-- Executes qb.getOne over a table: conjoin all filters, apply the take
limit from the find options, and return the first remaining row. -/
def runGetOne (db : List Ent) (spec : QuerySpec) : Option Ent :=
  let rows := db.filter (fun e =>
    (match spec.findOpts with
     | some o => (match o.cond with | some c => condMatches c e | none => true)
     | none => true)
    && (match spec.whereObj with | some c => whereMatches c e | none => true)
    && (match spec.whereIds with | some c => idMatches c e | none => true))
  let rows := match spec.findOpts with
    | some o => (match o.take with | some k => rows.take k | none => rows)
    | none => rows
  rows.head?

/-- Outcome of one findOne call: a synchronous throw for too many
arguments, an immediate resolution with undefined that never touches
storage, or an executed query with its result. -/
inductive FindOneOutcome (α : Type) where
  | tooManyArgs
  | resolvedWithoutQuery
  | queried (result : Option α)
deriving DecidableEq, Repr

/-- What the returned promise settles to: the thrown message, or the value
(none is the absence marker undefined). -/
def FindOneOutcome.resolves : FindOneOutcome α → Except String (Option α)
  | .tooManyArgs => .error "Too many arguments."
  | .resolvedWithoutQuery => .ok none
  | .queried r => .ok r

namespace LiteralEntityManager

/-- findOne of the literal entity manager
(src/src/repository/LiteralRepository.ts lines 687-742): rejects more than
two criteria arguments, resolves undefined immediately when an explicitly
passed first argument is undefined, null or false, otherwise extracts
find options from the first or second argument, takes a plain object first
argument as the where condition, merges take 1 for every non id lookup,
and runs getOne with an id filter when the first argument is an id and no
where object was set. -/
def findOne (args : List Criteria) (db : List Ent) : FindOneOutcome Ent :=
  if args.length > 2 then .tooManyArgs
  else
    let a0 := args.getD 0 .undef
    let a1 := args.getD 1 .undef
    if args.length ≥ 1 && (a0 == Criteria.undef || a0 == Criteria.null || a0 == Criteria.fls) then
      .resolvedWithoutQuery
    else
      let findOptions : Option FindOpts :=
        match a0 with
        | .opts o => some o
        | _ => match a1 with | .opts o => some o | _ => none
      let options : Option Criteria :=
        if isObjectCriteria a0 && !isFindOptionsCriteria a0 then some a0 else none
      let findById := isIdCriteria a0
      let findOptions :=
        if !findById then some { findOptions.getD {} with take := some 1 } else findOptions
      let whereIds := if options.isNone && findById then some a0 else none
      .queried (runGetOne db { findOpts := findOptions, whereObj := options, whereIds := whereIds })

end LiteralEntityManager

namespace EntityManager

/-- findOne of the class based EntityManager (src/unnamed/part_008 lines
625-664): same option extraction and dispatch as the literal manager, but
with no early return for undefined, null or false, and take 1 is merged
only when a FindOptions object was supplied. -/
def findOne (a0 a1 : Criteria) (db : List Ent) : Option Ent :=
  let findOptions : Option FindOpts :=
    match a0 with
    | .opts o => some o
    | _ => match a1 with | .opts o => some o | _ => none
  let options : Option Criteria :=
    if isObjectCriteria a0 && !isFindOptionsCriteria a0 then some a0 else none
  let findOptions := findOptions.map (fun o => { o with take := some 1 })
  let whereIds := if options.isNone && isIdCriteria a0 then some a0 else none
  runGetOne db { findOpts := findOptions, whereObj := options, whereIds := whereIds }

end EntityManager

/-- The failure a findOneOrFail promise can reject with: a rethrown message
from findOne itself, or the EntityNotFoundError of src/unnamed/part_009
(lines 60-87), which stores the resolved target name and the criteria the
lookup used. -/
inductive FindFailure where
  | thrown (msg : String)
  | notFound (targetName : String) (criteria : Criteria)
deriving DecidableEq, Repr

namespace LiteralEntityManager

/-- findOneOrFail of the literal entity manager
(src/src/repository/LiteralRepository.ts lines 744-751): forwards its two
criteria arguments to findOne; an undefined result becomes a rejection
with EntityNotFoundError(entityClass, idOrOptionsOrConditions), and a
found entity resolves as is. -/
def findOneOrFail (target : String) (a0 a1 : Criteria) (db : List Ent) :
    Except FindFailure Ent :=
  match (findOne [a0, a1] db).resolves with
  | .error m => .error (.thrown m)
  | .ok none => .error (.notFound target a0)
  | .ok (some e) => .ok e

/-- Result of one bulk mutation call (update / delete / softDelete /
restore): either the promise was rejected before any query builder was
created, or a query was built and executed with the given where shape. -/
inductive BulkResult where
  | rejected (msg : String)
  | executedWhereInIds (criteria : Criteria)
  | executedWhere (criteria : Criteria)
deriving DecidableEq, Repr

/-- The empty criteria test shared by update / delete / softDelete /
restore: undefined, null, the empty string, or an empty array. -/
def isEmptyCriteria : Criteria → Bool
  | .undef => true
  | .null => true
  | .str s => s == ""
  | .list xs => xs.isEmpty
  | _ => false

/-- update of the entity manager
(src/src/repository/LiteralRepository.ts lines 474-503): rejects empty
criteria before building a query, then dispatches ids (string, number,
Date, array) to whereInIds and everything else to where. -/
def update (target : String) (criteria : Criteria) (values : List (String × String)) :
    BulkResult :=
  if isEmptyCriteria criteria then
    .rejected "Empty criteria(s) are not allowed for the update method."
  else if isIdCriteria criteria || (match criteria with | .list _ => true | _ => false) then
    .executedWhereInIds criteria
  else
    .executedWhere criteria

/-- delete of the entity manager
(src/src/repository/LiteralRepository.ts lines 505-534); same shape as
update with a delete query. -/
def delete (target : String) (criteria : Criteria) : BulkResult :=
  if isEmptyCriteria criteria then
    .rejected "Empty criteria(s) are not allowed for the delete method."
  else if isIdCriteria criteria || (match criteria with | .list _ => true | _ => false) then
    .executedWhereInIds criteria
  else
    .executedWhere criteria

/-- softDelete of the entity manager
(src/src/repository/LiteralRepository.ts lines 536-565); the rejection
message reads delete method in the source as well. -/
def softDelete (target : String) (criteria : Criteria) : BulkResult :=
  if isEmptyCriteria criteria then
    .rejected "Empty criteria(s) are not allowed for the delete method."
  else if isIdCriteria criteria || (match criteria with | .list _ => true | _ => false) then
    .executedWhereInIds criteria
  else
    .executedWhere criteria

/-- restore of the entity manager
(src/src/repository/LiteralRepository.ts lines 567-596); the rejection
message reads delete method in the source as well. -/
def restore (target : String) (criteria : Criteria) : BulkResult :=
  if isEmptyCriteria criteria then
    .rejected "Empty criteria(s) are not allowed for the delete method."
  else if isIdCriteria criteria || (match criteria with | .list _ => true | _ => false) then
    .executedWhereInIds criteria
  else
    .executedWhere criteria

/-- An entity argument of save / remove / softRemove / recover after
parameter normalization: a single entity or an array of entities. -/
inductive EntityOrList (α : Type) where
  | one (e : α)
  | many (es : List α)
deriving DecidableEq, Repr

/-- Result of one persist style call: the promise resolved immediately
with the unchanged input and no EntityPersistExecutor was constructed, or
an executor was built and run for the given operation kind. -/
inductive PersistOutcome (α : Type) where
  | resolvedSameInput (input : EntityOrList α)
  | executorRun (kind : String) (target : Option String) (input : EntityOrList α)
deriving DecidableEq, Repr

/-- save of the entity manager
(src/src/repository/LiteralRepository.ts lines 383-401): an empty entity
array resolves as is; otherwise an EntityPersistExecutor for kind save is
constructed and executed. -/
def save (target : Option String) (input : EntityOrList Ent) : PersistOutcome Ent :=
  match input with
  | .many [] => .resolvedSameInput (.many [])
  | _ => .executorRun "save" target input

/-- remove of the entity manager
(src/src/repository/LiteralRepository.ts lines 403-418). -/
def remove (target : Option String) (input : EntityOrList Ent) : PersistOutcome Ent :=
  match input with
  | .many [] => .resolvedSameInput (.many [])
  | _ => .executorRun "remove" target input

/-- softRemove of the entity manager
(src/src/repository/LiteralRepository.ts lines 420-438). -/
def softRemove (target : Option String) (input : EntityOrList Ent) : PersistOutcome Ent :=
  match input with
  | .many [] => .resolvedSameInput (.many [])
  | _ => .executorRun "soft-remove" target input

/-- recover of the entity manager
(src/src/repository/LiteralRepository.ts lines 440-458). -/
def recover (target : Option String) (input : EntityOrList Ent) : PersistOutcome Ent :=
  match input with
  | .many [] => .resolvedSameInput (.many [])
  | _ => .executorRun "recover" target input

end LiteralEntityManager

/-- The errors the transaction method can surface.  The first four are the
guard errors thrown before any transactional work; thrown carries the
message of an error raised inside the transactional body (by start,
callback, commit or the observer pass). -/
inductive TxError where
  | missingCallback
  | mongoNotSupported
  | runnerAlreadyReleased
  | alreadyActive
  | thrown (msg : String)
deriving DecidableEq, Repr

/-- Which query runner calls the transaction method performed; each flag
records that the corresponding call was made (whether or not that call
itself then failed). -/
structure TxEffects where
  started : Bool
  committed : Bool
  rolledBack : Bool
  observersRan : Bool
  released : Bool
deriving DecidableEq, Repr

/-- No query runner call at all. -/
def noTxEffects : TxEffects := ⟨false, false, false, false, false⟩

/-- One transaction call described by its environment and by the outcome
every asynchronous step would produce if reached.  ownRunner is whether
this.queryRunner is set (a caller supplied runner); runnerReleased and
runnerTxActive are its isReleased and isTransactionActive flags at call
time; a none outcome means the step succeeds. -/
structure TxInput (T : Type) where
  hasCallback : Bool := true
  driverIsMongo : Bool := false
  ownRunner : Bool := false
  runnerReleased : Bool := false
  runnerTxActive : Bool := false
  isolation : Option String := none
  startResult : Option TxError := none
  callbackResult : Except TxError T
  commitResult : Option TxError := none
  observerResult : Option TxError := none
  rollbackResult : Option TxError := none

namespace EntityManager

/-- The transaction method, identical in the literal entity manager
(src/src/repository/LiteralRepository.ts lines 277-324) and the class
based EntityManager (src/unnamed/part_008 lines 114-160): after the four
guards it starts a transaction on the caller supplied runner or on a fresh
one, runs the callback, commits and runs observers; any error in that body
is caught, a rollback is attempted with its own error swallowed, and the
original error is rethrown; the finally clause releases the runner exactly
when the method created it. -/
def transaction (inp : TxInput T) : Except TxError T × TxEffects :=
  if !inp.hasCallback then (.error .missingCallback, noTxEffects)
  else if inp.driverIsMongo then (.error .mongoNotSupported, noTxEffects)
  else if inp.ownRunner && inp.runnerReleased then (.error .runnerAlreadyReleased, noTxEffects)
  else if inp.ownRunner && inp.runnerTxActive then (.error .alreadyActive, noTxEffects)
  else
    let released := !inp.ownRunner
    match inp.startResult with
    | some e => (.error e, ⟨true, false, true, false, released⟩)
    | none =>
      match inp.callbackResult with
      | .error e => (.error e, ⟨true, false, true, false, released⟩)
      | .ok v =>
        match inp.commitResult with
        | some e => (.error e, ⟨true, true, true, false, released⟩)
        | none =>
          match inp.observerResult with
          | some e => (.error e, ⟨true, true, true, true, released⟩)
          | none => (.ok v, ⟨true, true, false, true, released⟩)

end EntityManager

/-- A row of a nested set tree table: primary key plus the left and right
boundary columns (nestedSetLeftColumn / nestedSetRightColumn). -/
structure NsRow where
  id : Int
  nsleft : Int
  nsright : Int
deriving DecidableEq, Repr

namespace LiteralTreeRepository

/-- Result set of the descendants query built by the nested set branch of
createDescendantsQueryBuilder
(src/src/repository/LiteralTreeRepository.ts lines 129-143): the table is
inner joined with itself under alias joined on
alias.nsleft BETWEEN joined.nsleft AND joined.nsright (SQL BETWEEN is
inclusive on both ends), and the where clause pins joined to the row whose
primary key equals the primary key value of the given entity. -/
def createDescendantsQueryBuilderNestedSet (table : List NsRow) (entity : NsRow) :
    List NsRow :=
  table.filter (fun r => table.any (fun j =>
    j.id == entity.id && decide (j.nsleft ≤ r.nsleft) && decide (r.nsleft ≤ j.nsright)))

/-- Result set of the ancestors query built by the nested set branch of
createAncestorsQueryBuilder
(src/src/repository/LiteralTreeRepository.ts lines 212-226): the self join
condition is joined.nsleft BETWEEN alias.nsleft AND alias.nsright and the
where clause pins joined to the row with the primary key of the entity. -/
def createAncestorsQueryBuilderNestedSet (table : List NsRow) (entity : NsRow) :
    List NsRow :=
  table.filter (fun r => table.any (fun j =>
    decide (r.nsleft ≤ j.nsleft) && decide (j.nsleft ≤ r.nsright) && j.id == entity.id))

/-- One entry of the relation maps produced by createRelationMaps
(src/src/repository/LiteralTreeRepository.ts lines 17-29): the primary key
of a fetched row together with the value of the tree parent join column
(none for a root row whose parent column is null). -/
structure RelationMap where
  id : Int
  parentId : Option Int
deriving DecidableEq, Repr

/-- The list assigned to entity[childProperty] for a node with the given
primary key value: the fetched entities whose id is in the set of
relation map ids whose parentId equals that key
(src/src/repository/LiteralTreeRepository.ts lines 34-36). -/
def attachedChildren (relationMaps : List RelationMap) (entities : List Ent)
    (parentEntityId : Int) : List Ent :=
  let childIds := (relationMaps.filter (fun m => m.parentId == some parentEntityId)).map (·.id)
  entities.filter (fun c => childIds.contains c.id)

/-- The nested object tree that buildChildrenEntityTree materializes: each
node is an entity together with the children attached under its tree
children property. -/
inductive EntityTree where
  | node (entity : Ent) (children : List EntityTree)

/-- buildChildrenEntityTree
(src/src/repository/LiteralTreeRepository.ts lines 31-40) with explicit
recursion fuel (the source recurses without a bound and would not
terminate on a cyclic relation map): attach under the node the fetched
entities whose id appears among the relation map ids with this node as
parent, then recurse into each attached child. -/
def buildChildrenEntityTree : Nat → List RelationMap → List Ent → Ent → EntityTree
  | 0, _, _, e => .node e []
  | fuel + 1, relationMaps, entities, e =>
    .node e ((attachedChildren relationMaps entities e.id).map
      (fun c => buildChildrenEntityTree fuel relationMaps entities c))

end LiteralTreeRepository

/-- Taking at least one element never changes the first element of a list. -/
theorem head_take_pos (l : List α) (k : Nat) (hk : k ≠ 0) : (l.take k).head? = l.head? := by
  cases l <;> cases k <;> simp_all

/-- Claim C2: for every target and every criteria that is undefined, null,
the empty string or an empty array, update, delete, softDelete and restore
all reject before any query is built or executed, so storage is never
touched and the call is neither a no-op nor an affect-everything call. -/
theorem empty_criteria_rejected (target : String) (values : List (String × String))
    (criteria : Criteria)
    (h : criteria = Criteria.undef ∨ criteria = Criteria.null ∨
      criteria = Criteria.str "" ∨ criteria = Criteria.list []) :
    LiteralEntityManager.update target criteria values =
      .rejected "Empty criteria(s) are not allowed for the update method."
    ∧ LiteralEntityManager.delete target criteria =
      .rejected "Empty criteria(s) are not allowed for the delete method."
    ∧ LiteralEntityManager.softDelete target criteria =
      .rejected "Empty criteria(s) are not allowed for the delete method."
    ∧ LiteralEntityManager.restore target criteria =
      .rejected "Empty criteria(s) are not allowed for the delete method." := by
  rcases h with h | h | h | h <;> subst h <;> exact ⟨rfl, rfl, rfl, rfl⟩

/-- Witness for claim C2 at criteria equal to an empty array. -/
theorem empty_criteria_rejected_witness :
    LiteralEntityManager.delete "Post" (Criteria.list []) =
      .rejected "Empty criteria(s) are not allowed for the delete method." :=
  (empty_criteria_rejected "Post" [] (Criteria.list [])
    (Or.inr (Or.inr (Or.inr rfl)))).2.1

/-- Claim C10: save, remove, softRemove and recover on an empty entity
array resolve immediately with that same empty array; no persist executor
is constructed and no transaction or storage interaction happens. -/
theorem persist_empty_array_noop (target : Option String) :
    LiteralEntityManager.save target (.many ([] : List Ent)) = .resolvedSameInput (.many [])
    ∧ LiteralEntityManager.remove target (.many ([] : List Ent)) = .resolvedSameInput (.many [])
    ∧ LiteralEntityManager.softRemove target (.many ([] : List Ent)) =
      .resolvedSameInput (.many [])
    ∧ LiteralEntityManager.recover target (.many ([] : List Ent)) =
      .resolvedSameInput (.many []) :=
  ⟨rfl, rfl, rfl, rfl⟩

/-- Claim C5: for every table, findOne of the literal entity manager called
with undefined or null as criteria (with or without a second argument)
resolves to the absence marker without executing any query, so it never
resolves to an arbitrary first row. -/
theorem findOne_undefined_null_resolves_absence (a1 : Criteria) (db : List Ent) :
    LiteralEntityManager.findOne [Criteria.undef] db = .resolvedWithoutQuery
    ∧ LiteralEntityManager.findOne [Criteria.undef, a1] db = .resolvedWithoutQuery
    ∧ LiteralEntityManager.findOne [Criteria.null] db = .resolvedWithoutQuery
    ∧ LiteralEntityManager.findOne [Criteria.null, a1] db = .resolvedWithoutQuery :=
  ⟨rfl, rfl, rfl, rfl⟩

/-- Claim C7: findOneOrFail resolves with a found entity exactly when
findOne with the same arguments resolves with that entity, and an absent
result becomes a rejection with the not-found error carrying the entity
type and the criteria that were used. -/
theorem findOneOrFail_spec (target : String) (a0 a1 : Criteria) (db : List Ent) :
    (∀ e : Ent, LiteralEntityManager.findOneOrFail target a0 a1 db = Except.ok e ↔
      (LiteralEntityManager.findOne [a0, a1] db).resolves = Except.ok (some e))
    ∧ ((LiteralEntityManager.findOne [a0, a1] db).resolves = Except.ok none →
      LiteralEntityManager.findOneOrFail target a0 a1 db =
        Except.error (FindFailure.notFound target a0)) := by
  unfold LiteralEntityManager.findOneOrFail
  rcases h : (LiteralEntityManager.findOne [a0, a1] db).resolves with m | r
  · exact ⟨fun e => by simp, fun contra => by simp at contra⟩
  · rcases r with _ | e0
    · exact ⟨fun e => by simp, fun _ => rfl⟩
    · refine ⟨fun e => ?_, fun contra => by simp at contra⟩
      constructor
      · intro he
        simp only [Except.ok.injEq] at he
        rw [he]
      · intro he
        simp only [Except.ok.injEq, Option.some.injEq] at he
        rw [he]

/-- Witness for claim C7: a lookup over an empty table rejects with the
not-found error carrying the target and the criteria. -/
theorem findOneOrFail_spec_witness :
    LiteralEntityManager.findOneOrFail "Post" (Criteria.cond [("title", "pig")])
      Criteria.undef [] =
      Except.error (FindFailure.notFound "Post" (Criteria.cond [("title", "pig")])) :=
  (findOneOrFail_spec "Post" (Criteria.cond [("title", "pig")]) Criteria.undef []).2 rfl

/-- Claim C3: when the four guards pass, the transaction starts and a
failing callback makes the method roll back and rethrow the original
callback error; this holds for every outcome of the rollback call, so a
rollback failure is swallowed and never replaces the original error. -/
theorem transaction_rethrows_original_error {T : Type} (inp : TxInput T) (e : TxError)
    (hcb : inp.hasCallback = true) (hmongo : inp.driverIsMongo = false)
    (hrel : (inp.ownRunner && inp.runnerReleased) = false)
    (hact : (inp.ownRunner && inp.runnerTxActive) = false)
    (hstart : inp.startResult = none)
    (hfail : inp.callbackResult = Except.error e) :
    ∀ r : Option TxError,
      (EntityManager.transaction { inp with rollbackResult := r }).1 = Except.error e
      ∧ (EntityManager.transaction { inp with rollbackResult := r }).2.rolledBack = true
      ∧ (EntityManager.transaction { inp with rollbackResult := r }).2.committed = false := by
  intro r
  obtain ⟨cb, mongo, own, rel, act, iso, st, cbres, com, obs, rb⟩ := inp
  simp only at hcb hmongo hrel hact hstart hfail
  subst hcb hmongo hstart hfail
  refine ⟨?_, ?_, ?_⟩ <;> simp [EntityManager.transaction, hrel, hact]

/-- Witness for claim C3: a concrete failing callback with a failing
rollback still surfaces the callback error. -/
theorem transaction_rethrows_original_error_witness :
    (EntityManager.transaction (T := Nat)
      { callbackResult := Except.error (TxError.thrown "boom"),
        rollbackResult := some (TxError.thrown "rollback failed") }).1 =
      Except.error (TxError.thrown "boom") :=
  (transaction_rethrows_original_error (T := Nat)
    { callbackResult := Except.error (TxError.thrown "boom") }
    (TxError.thrown "boom") rfl rfl rfl rfl rfl rfl
    (some (TxError.thrown "rollback failed"))).1

/-- Claim C4: calling transaction while the caller supplied runner already
has an active transaction never resolves successfully and performs no
runner call at all (nothing started, committed, rolled back or released);
when the earlier guards pass it is exactly the explicit already-active
error. -/
theorem transaction_already_active_fails_fast {T : Type} (inp : TxInput T)
    (hown : inp.ownRunner = true) (hact : inp.runnerTxActive = true) :
    (∀ v : T, (EntityManager.transaction inp).1 ≠ Except.ok v)
    ∧ (EntityManager.transaction inp).2 = noTxEffects
    ∧ (inp.hasCallback = true → inp.driverIsMongo = false → inp.runnerReleased = false →
      EntityManager.transaction inp = (Except.error TxError.alreadyActive, noTxEffects)) := by
  obtain ⟨cb, mongo, own, rel, act, iso, st, cbres, com, obs, rb⟩ := inp
  simp only at hown hact
  subst hown hact
  refine ⟨?_, ?_, ?_⟩
  · intro v
    cases cb <;> cases mongo <;> cases rel <;> simp [EntityManager.transaction]
  · cases cb <;> cases mongo <;> cases rel <;> simp [EntityManager.transaction]
  · intro h1 h2 h3
    subst h1 h2 h3
    simp [EntityManager.transaction]

/-- Witness for claim C4 at a concrete input with an active caller
supplied runner. -/
theorem transaction_already_active_fails_fast_witness :
    EntityManager.transaction (T := Nat)
      { ownRunner := true, runnerTxActive := true, callbackResult := Except.ok 5 } =
      (Except.error TxError.alreadyActive, noTxEffects) :=
  (transaction_already_active_fails_fast (T := Nat)
    { ownRunner := true, runnerTxActive := true, callbackResult := Except.ok 5 }
    rfl rfl).2.2 rfl rfl rfl

/-- Claim C8: the transaction method releases a runner only when it
created that runner itself: a caller supplied runner is never released,
and if that runner already had an active transaction at call time nothing
is committed or rolled back on it. -/
theorem transaction_runner_ownership {T : Type} (inp : TxInput T) :
    ((EntityManager.transaction inp).2.released = true → inp.ownRunner = false)
    ∧ (inp.ownRunner = true → (EntityManager.transaction inp).2.released = false)
    ∧ (inp.ownRunner = true → inp.runnerTxActive = true →
      (EntityManager.transaction inp).2.committed = false
      ∧ (EntityManager.transaction inp).2.rolledBack = false) := by
  obtain ⟨cb, mongo, own, rel, act, iso, st, cbres, com, obs, rb⟩ := inp
  cases cb <;> cases mongo <;> cases own <;> cases rel <;> cases act <;>
    cases st <;> rcases cbres with e | v <;> cases com <;> cases obs <;>
      simp [EntityManager.transaction, noTxEffects]

/-- Witness for claim C8: with a caller supplied runner holding an active
transaction, nothing is committed. -/
theorem transaction_runner_ownership_witness :
    (EntityManager.transaction (T := Nat)
      { ownRunner := true, runnerTxActive := true,
        callbackResult := Except.ok 7 }).2.committed = false :=
  ((transaction_runner_ownership (T := Nat)
    { ownRunner := true, runnerTxActive := true,
      callbackResult := Except.ok 7 }).2.2 rfl rfl).1

/-- A two row nested set table: a root spanning 1..4 and one child
spanning 2..3. -/
def nsExampleTable : List NsRow := [⟨1, 1, 4⟩, ⟨2, 2, 3⟩]

/-- The root row of the example nested set table. -/
def nsExampleRoot : NsRow := ⟨1, 1, 4⟩

/-- Counterexample to claim C1 as stated: the descendants query of the
nested set strategy selects the entity itself (its left boundary is not
strictly between its own boundaries), so the selected set is not the set
of rows with left boundary strictly between the boundaries of E. -/
theorem nested_set_strict_between_counterexample :
    nsExampleRoot ∈
      LiteralTreeRepository.createDescendantsQueryBuilderNestedSet nsExampleTable nsExampleRoot
    ∧ LiteralTreeRepository.createDescendantsQueryBuilderNestedSet nsExampleTable nsExampleRoot ≠
      nsExampleTable.filter (fun r =>
        decide (nsExampleRoot.nsleft < r.nsleft) && decide (r.nsleft < nsExampleRoot.nsright)) := by
  decide

/-- Claim C1 amended: over a table containing E whose primary key is
unique, the nested set descendants query selects exactly the rows whose
left boundary lies inclusively between the left and right boundaries of E,
and the ancestors query selects exactly the rows whose boundaries
inclusively enclose the left boundary of E; in particular E is selected as
its own descendant. -/
theorem nested_set_query_builders_amended (table : List NsRow) (e : NsRow)
    (hmem : e ∈ table) (huniq : ∀ j ∈ table, j.id = e.id → j = e)
    (hlr : e.nsleft ≤ e.nsright) :
    (∀ r : NsRow,
      r ∈ LiteralTreeRepository.createDescendantsQueryBuilderNestedSet table e ↔
        r ∈ table ∧ e.nsleft ≤ r.nsleft ∧ r.nsleft ≤ e.nsright)
    ∧ (∀ r : NsRow,
      r ∈ LiteralTreeRepository.createAncestorsQueryBuilderNestedSet table e ↔
        r ∈ table ∧ r.nsleft ≤ e.nsleft ∧ e.nsleft ≤ r.nsright)
    ∧ e ∈ LiteralTreeRepository.createDescendantsQueryBuilderNestedSet table e := by
  have hd : ∀ r : NsRow,
      r ∈ LiteralTreeRepository.createDescendantsQueryBuilderNestedSet table e ↔
        r ∈ table ∧ e.nsleft ≤ r.nsleft ∧ r.nsleft ≤ e.nsright := by
    intro r
    simp only [LiteralTreeRepository.createDescendantsQueryBuilderNestedSet, List.mem_filter,
      List.any_eq_true, Bool.and_eq_true, beq_iff_eq, decide_eq_true_eq]
    constructor
    · rintro ⟨hr, j, hj, ⟨hid, h1⟩, h2⟩
      have hje := huniq j hj hid
      subst hje
      exact ⟨hr, h1, h2⟩
    · rintro ⟨hr, h1, h2⟩
      exact ⟨hr, e, hmem, ⟨rfl, h1⟩, h2⟩
  refine ⟨hd, ?_, (hd e).mpr ⟨hmem, le_refl _, hlr⟩⟩
  intro r
  simp only [LiteralTreeRepository.createAncestorsQueryBuilderNestedSet, List.mem_filter,
    List.any_eq_true, Bool.and_eq_true, beq_iff_eq, decide_eq_true_eq]
  constructor
  · rintro ⟨hr, j, hj, ⟨h1, h2⟩, hid⟩
    have hje := huniq j hj hid
    subst hje
    exact ⟨hr, h1, h2⟩
  · rintro ⟨hr, h1, h2⟩
    exact ⟨hr, e, hmem, ⟨h1, h2⟩, rfl⟩

/-- Witness for the amended claim C1 at the concrete example table. -/
theorem nested_set_query_builders_amended_witness :
    nsExampleRoot ∈
      LiteralTreeRepository.createDescendantsQueryBuilderNestedSet nsExampleTable nsExampleRoot :=
  (nested_set_query_builders_amended nsExampleTable nsExampleRoot (by decide) (by decide)
    (by decide)).2.2

/-- Claim C6: one step of the recursive tree materialization attaches
under a node exactly the fetched entities for which some relation map
entry pairs their id with this node as parent, recursion continues into
each attached child, and when the fetched entities have pairwise distinct
ids no id is attached twice under the same parent. -/
theorem buildChildrenEntityTree_spec (fuel : Nat)
    (relationMaps : List LiteralTreeRepository.RelationMap)
    (entities : List Ent) (e : Ent) :
    LiteralTreeRepository.buildChildrenEntityTree (fuel + 1) relationMaps entities e =
      .node e ((LiteralTreeRepository.attachedChildren relationMaps entities e.id).map
        (LiteralTreeRepository.buildChildrenEntityTree fuel relationMaps entities))
    ∧ (∀ c : Ent,
      c ∈ LiteralTreeRepository.attachedChildren relationMaps entities e.id ↔
        c ∈ entities ∧ ∃ m ∈ relationMaps, m.parentId = some e.id ∧ m.id = c.id)
    ∧ ((entities.map Ent.id).Nodup →
      ((LiteralTreeRepository.attachedChildren relationMaps entities e.id).map Ent.id).Nodup) := by
  refine ⟨rfl, ?_, ?_⟩
  · intro c
    simp only [LiteralTreeRepository.attachedChildren, List.mem_filter,
      List.contains_eq_any_beq, List.any_eq_true, List.mem_map, List.mem_filter,
      Bool.and_eq_true, beq_iff_eq]
    constructor
    · rintro ⟨hc, x, ⟨m, ⟨hm, hpar⟩, hmid⟩, hx⟩
      exact ⟨hc, m, hm, hpar, by rw [hmid, ← hx]⟩
    · rintro ⟨hc, m, hm, hpar, hmid⟩
      exact ⟨hc, m.id, ⟨m, ⟨hm, hpar⟩, rfl⟩, hmid.symm⟩
  · intro h
    exact h.sublist ((List.filter_sublist entities).map Ent.id)

/-- Witness for claim C6 at a concrete parent with two mapped children
and distinct entity ids. -/
theorem buildChildrenEntityTree_spec_witness :
    (([⟨1, []⟩, ⟨2, []⟩, ⟨3, []⟩] : List Ent).map Ent.id).Nodup
    ∧ ((LiteralTreeRepository.attachedChildren
      [⟨2, some 1⟩, ⟨3, some 1⟩] [⟨1, []⟩, ⟨2, []⟩, ⟨3, []⟩] 1).map Ent.id).Nodup :=
  ⟨by decide,
    (buildChildrenEntityTree_spec 0 [⟨2, some 1⟩, ⟨3, some 1⟩]
      [⟨1, []⟩, ⟨2, []⟩, ⟨3, []⟩] ⟨1, []⟩).2.2 (by decide)⟩

/-- getOne reads only the first row, so any nonzero take limit gives the
same result as the take 1 limit the class based findOne merges in. -/
theorem runGetOne_take_eq (db : List Ent) (c : Option (List (String × String)))
    (w i : Option Criteria) (t : Option Nat) (ht : t ≠ some 0) :
    runGetOne db ⟨some ⟨c, t⟩, w, i⟩ = runGetOne db ⟨some ⟨c, some 1⟩, w, i⟩ := by
  rcases t with _ | k
  · simp [runGetOne, head_take_pos]
  · have hk : k ≠ 0 := fun h => ht (by rw [h])
    simp [runGetOne, head_take_pos _ _ hk, head_take_pos]

/-- getOne reads only the first row, so find options carrying nothing but
the merged take 1 limit give the same result as no find options. -/
theorem runGetOne_none_take_eq (db : List Ent) (w i : Option Criteria) :
    runGetOne db ⟨some ⟨none, some 1⟩, w, i⟩ = runGetOne db ⟨none, w, i⟩ := by
  simp [runGetOne, head_take_pos]

/-- Two argument agreement of the two findOne implementations outside the
divergent inputs. -/
theorem findOne_two_arg_equiv (a0 a1 : Criteria) (db : List Ent)
    (h0 : a0 ≠ Criteria.undef) (h1 : a0 ≠ Criteria.null) (h2 : a0 ≠ Criteria.fls)
    (h3 : ∀ o : FindOpts, a1 = Criteria.opts o → isIdCriteria a0 = true → o.take ≠ some 0) :
    (LiteralEntityManager.findOne [a0, a1] db).resolves =
      Except.ok (EntityManager.findOne a0 a1 db) := by
  rcases a0 with _ | _ | _ | s | n | d | xs | c | o
  · exact absurd rfl h0
  · exact absurd rfl h1
  · exact absurd rfl h2
  · rcases a1 with _ | _ | _ | s1 | n1 | d1 | xs1 | c1 | ⟨oc, ot⟩ <;>
      first
        | rfl
        | exact congrArg Except.ok
            (runGetOne_take_eq db oc none (some (Criteria.str s)) ot (h3 ⟨oc, ot⟩ rfl rfl))
  · rcases a1 with _ | _ | _ | s1 | n1 | d1 | xs1 | c1 | ⟨oc, ot⟩ <;>
      first
        | rfl
        | exact congrArg Except.ok
            (runGetOne_take_eq db oc none (some (Criteria.num n)) ot (h3 ⟨oc, ot⟩ rfl rfl))
  · rcases a1 with _ | _ | _ | s1 | n1 | d1 | xs1 | c1 | ⟨oc, ot⟩ <;>
      first
        | rfl
        | exact congrArg Except.ok
            (runGetOne_take_eq db oc (some (Criteria.date d)) none ot (h3 ⟨oc, ot⟩ rfl rfl))
  · rcases a1 with _ | _ | _ | s1 | n1 | d1 | xs1 | c1 | ⟨oc, ot⟩ <;>
      first
        | rfl
        | exact congrArg Except.ok (runGetOne_none_take_eq db (some (Criteria.list xs)) none)
  · rcases a1 with _ | _ | _ | s1 | n1 | d1 | xs1 | c1 | ⟨oc, ot⟩ <;>
      first
        | rfl
        | exact congrArg Except.ok (runGetOne_none_take_eq db (some (Criteria.cond c)) none)
  · rfl

/-- A one row table for the counterexample to claim C9. -/
def findOneExampleDb : List Ent := [⟨1, [("title", "cat")]⟩]

/-- Counterexample to claim C9 as stated: with an explicitly passed
undefined criteria the literal entity manager findOne resolves to absence
without querying, while the class based EntityManager findOne executes the
unrestricted query and resolves to the first row of the table, so the two
implementations are not equivalent on every argument list. -/
theorem findOne_equivalence_counterexample :
    (LiteralEntityManager.findOne [Criteria.undef] findOneExampleDb).resolves = Except.ok none
    ∧ EntityManager.findOne Criteria.undef Criteria.undef findOneExampleDb =
      some ⟨1, [("title", "cat")]⟩
    ∧ (LiteralEntityManager.findOne [Criteria.undef] findOneExampleDb).resolves ≠
      Except.ok (EntityManager.findOne Criteria.undef Criteria.undef findOneExampleDb) :=
  ⟨rfl, rfl, fun h => Option.noConfusion (Except.ok.inj h)⟩

/-- Claim C9 amended: the two findOne implementations resolve identically
for every table and argument list except that (a) an explicitly passed
undefined, null or false criteria resolves to absence in the literal
manager but runs an unrestricted query in the class manager, and (b) an id
criteria (string, number or Date) combined with find options whose take is
0 keeps that zero limit in the literal manager while the class manager
overrides it with 1.  Outside those inputs, calls with two arguments, one
argument, and no arguments all agree. -/
theorem findOne_class_literal_equivalence_amended (a0 a1 : Criteria) (db : List Ent)
    (h0 : a0 ≠ Criteria.undef) (h1 : a0 ≠ Criteria.null) (h2 : a0 ≠ Criteria.fls)
    (h3 : ∀ o : FindOpts, a1 = Criteria.opts o → isIdCriteria a0 = true → o.take ≠ some 0) :
    (LiteralEntityManager.findOne [a0, a1] db).resolves =
      Except.ok (EntityManager.findOne a0 a1 db)
    ∧ (LiteralEntityManager.findOne [a0] db).resolves =
      Except.ok (EntityManager.findOne a0 Criteria.undef db)
    ∧ (LiteralEntityManager.findOne [] db).resolves =
      Except.ok (EntityManager.findOne Criteria.undef Criteria.undef db) := by
  refine ⟨findOne_two_arg_equiv a0 a1 db h0 h1 h2 h3, ?_, ?_⟩
  · exact findOne_two_arg_equiv a0 Criteria.undef db h0 h1 h2 (fun o ho _ => nomatch ho)
  · exact congrArg Except.ok (runGetOne_none_take_eq db none none)

/-- A two row table for the witness of the amended claim C9. -/
def findOneWitnessDb : List Ent := [⟨1, [("title", "cat")]⟩, ⟨2, [("title", "dog")]⟩]

/-- Witness for the amended claim C9 at a plain condition lookup. -/
theorem findOne_class_literal_equivalence_amended_witness :
    (LiteralEntityManager.findOne [Criteria.cond [("title", "dog")], Criteria.undef]
      findOneWitnessDb).resolves =
      Except.ok (EntityManager.findOne (Criteria.cond [("title", "dog")]) Criteria.undef
        findOneWitnessDb) :=
  (findOne_class_literal_equivalence_amended (Criteria.cond [("title", "dog")]) Criteria.undef
    findOneWitnessDb (by decide) (by decide) (by decide) (fun o ho _ => nomatch ho)).1
